import Mathlib

/-!
Verification development for the multiformat exam generator.

The repository is a TypeScript/Next.js application.  This file gives a
shallow embedding of its core: the zod configuration schema and the
`POST /api/generate-exam` endpoint (src/app/api/generate-exam/route.ts),
the demo quiz generator `makeDemoQuiz`, the client mock API
(src/lib/api.ts: `uploadFiles`, `getJobStatus`, `buildSampleQuiz`,
`simulateProcessing`), the zustand review store (src/stores/useAppStore.ts)
and the export modal (src/components/ExportModal.tsx).

Modelling conventions:
- JavaScript values flowing through JSON.parse / zod are embedded as the
  `Json` inductive below; JSON numbers are modelled as exact rationals.
- Sources of nondeterminism (Math.random, Date.now, crypto.randomUUID)
  are passed in explicitly as parameters or environment records.
- File-system side effects (job records under jobs/, uploaded files under
  uploads/jobId) are modelled as an explicit `FsState` threaded through
  the endpoint.
- `undefined` on an optional object property is modelled as `Option.none`;
  a property that is present-but-undefined in a spread patch is modelled
  by a double `Option` (outer: key present, inner: value or undefined).
-/

namespace ExamGen

/-- A JavaScript JSON-ish value.  `num` carries an exact rational (JS
numbers are floats; every numeric literal occurring in this code base is
exactly representable).  `nan` models the NaN produced by a failed
`Number(...)` coercion; zod's `z.number()` rejects it. -/
inductive Json where
  | null : Json
  | bool : Bool → Json
  | num : ℚ → Json
  | nan : Json
  | str : String → Json
  | arr : List Json → Json
  | obj : List (String × Json) → Json

/-- Property lookup on a JS object (first binding wins; the objects built
by this code base have distinct keys). -/
def getField (o : List (String × Json)) (k : String) : Option Json :=
  match o.find? (fun p => p.1 == k) with
  | some p => some p.2
  | none => none

/-- The four concrete question types of `QuizQuestion.type`. -/
inductive QType where
  | mcq | tf | fib | theory
deriving DecidableEq, Repr

/-- The five values of the schema field `questionType`
(`z.enum(["mixed","mcq","tf","fib","theory"])`). -/
inductive QuestionType where
  | mixed | mcq | tf | fib | theory
deriving DecidableEq, Repr

/-- Schema enum `z.enum(["MiddleSchool","HighSchool","Undergrad","Corporate"])`. -/
inductive Complexity where
  | middleSchool | highSchool | undergrad | corporate
deriving DecidableEq, Repr

/-- Schema enum `z.enum(["paste","upload"])` for the optional `sourceMode` field. -/
inductive SourceMode where
  | paste | upload
deriving DecidableEq, Repr

/-- The UI-only review status of a question. -/
inductive QStatus where
  | pending | accepted | rejected | regenerated
deriving DecidableEq, Repr

/-- Field `answer?: string | string[]` of `QuizQuestion`. -/
inductive Answer where
  | str : String → Answer
  | arr : List String → Answer
deriving DecidableEq, Repr

/-- Type `SourceAnchor` from src/lib/api.ts.  The TS field `end` is a Lean
keyword, rendered here as `endPos`. -/
structure SourceAnchor where
  page : Option ℚ := none
  start : Option ℚ := none
  endPos : Option ℚ := none
  text : Option String := none
deriving DecidableEq, Repr

/-- Type `QuizQuestion` from src/lib/api.ts. -/
structure QuizQuestion where
  id : String
  type : QType
  prompt : String
  choices : Option (List String) := none
  answer : Option Answer := none
  explanation : Option String := none
  confidence : Option ℚ := none
  tags : Option (List String) := none
  source : Option String := none
  sourceAnchors : Option (List SourceAnchor) := none
  status : Option QStatus := none
deriving DecidableEq, Repr

/-- Type `Quiz` from src/lib/api.ts. -/
structure Quiz where
  quizId : String
  title : Option String := none
  subject : Option String := none
  generatedAt : String
  questions : List QuizQuestion
deriving DecidableEq, Repr

/-- The output type of a successful `GenerationSchema.safeParse`:
optional fields that were absent stay absent (`none`), exactly as zod's
`.optional()` leaves them `undefined`. -/
structure GenerationConfig where
  title : String
  subject : String
  questionCount : ℤ
  questionType : QuestionType
  complexity : Complexity
  aoc : Option (List String) := none
  language : Option String := none
  sourceMode : Option SourceMode := none
  pastedText : Option String := none
deriving DecidableEq, Repr

namespace GenerationSchema

/-- Applicative composition of zod field results: zod collects the issues
of every failing field rather than stopping at the first. -/
def zBoth {α β : Type} : Except (List String) α → Except (List String) β →
    Except (List String) (α × β)
  | .ok a, .ok b => .ok (a, b)
  | .error e, .ok _ => .error e
  | .ok _, .error f => .error f
  | .error e, .error f => .error (e ++ f)

/-- Zod field `title: z.string().min(1)` (and identically `subject`). -/
def parseNonEmptyString (o : List (String × Json)) (k : String) :
    Except (List String) String :=
  match getField o k with
  | some (.str s) => if s.length ≥ 1 then .ok s else .error [k]
  | _ => .error [k]

/-- Zod field `questionCount: z.number().int().min(1).max(100)`.  A rational with
denominator 1 is an integral JS number; `nan` and non-numbers fail. -/
def parseQuestionCount (o : List (String × Json)) :
    Except (List String) ℤ :=
  match getField o "questionCount" with
  | some (.num q) =>
      if q.den = 1 ∧ 1 ≤ q.num ∧ q.num ≤ 100 then .ok q.num
      else .error ["questionCount"]
  | _ => .error ["questionCount"]

/-- Zod field `questionType: z.enum([...])`. -/
def parseQuestionType (o : List (String × Json)) :
    Except (List String) QuestionType :=
  match getField o "questionType" with
  | some (.str "mixed") => .ok .mixed
  | some (.str "mcq") => .ok .mcq
  | some (.str "tf") => .ok .tf
  | some (.str "fib") => .ok .fib
  | some (.str "theory") => .ok .theory
  | _ => .error ["questionType"]

/-- Zod field `complexity: z.enum([...])`. -/
def parseComplexity (o : List (String × Json)) :
    Except (List String) Complexity :=
  match getField o "complexity" with
  | some (.str "MiddleSchool") => .ok .middleSchool
  | some (.str "HighSchool") => .ok .highSchool
  | some (.str "Undergrad") => .ok .undergrad
  | some (.str "Corporate") => .ok .corporate
  | _ => .error ["complexity"]

/-- Decode a JSON array all of whose elements are strings. -/
def asStringList : List Json → Option (List String)
  | [] => some []
  | .str s :: rest => (asStringList rest).map (fun t => s :: t)
  | _ => none

/-- Zod field `aoc: z.array(z.string()).optional()`: an absent field stays absent;
a present field must be an array of strings. -/
def parseAoc (o : List (String × Json)) :
    Except (List String) (Option (List String)) :=
  match getField o "aoc" with
  | none => .ok none
  | some (.arr xs) =>
      match asStringList xs with
      | some ss => .ok (some ss)
      | none => .error ["aoc"]
  | some _ => .error ["aoc"]

/-- Zod shape `z.string().optional()` for `language` and `pastedText`. -/
def parseOptString (o : List (String × Json)) (k : String) :
    Except (List String) (Option String) :=
  match getField o k with
  | none => .ok none
  | some (.str s) => .ok (some s)
  | some _ => .error [k]

/-- Zod field `sourceMode: z.enum(["paste","upload"]).optional()`. -/
def parseSourceMode (o : List (String × Json)) :
    Except (List String) (Option SourceMode) :=
  match getField o "sourceMode" with
  | none => .ok none
  | some (.str "paste") => .ok (some .paste)
  | some (.str "upload") => .ok (some .upload)
  | some _ => .error ["sourceMode"]

/-- Combined field validation of the schema, all nine fields reported. -/
def parseFields (o : List (String × Json)) :
    Except (List String)
      (String × String × ℤ × QuestionType × Complexity × Option (List String)
        × Option String × Option SourceMode × Option String) :=
  zBoth (parseNonEmptyString o "title")
    (zBoth (parseNonEmptyString o "subject")
      (zBoth (parseQuestionCount o)
        (zBoth (parseQuestionType o)
          (zBoth (parseComplexity o)
            (zBoth (parseAoc o)
              (zBoth (parseOptString o "language")
                (zBoth (parseSourceMode o)
                  (parseOptString o "pastedText"))))))))

/-- Assembly of the normalized config from the nine validated fields. -/
def mkConfig :
    String × String × ℤ × QuestionType × Complexity × Option (List String)
      × Option String × Option SourceMode × Option String → GenerationConfig
  | (t, s, n, ty, c, a, l, m, p) =>
      { title := t, subject := s, questionCount := n, questionType := ty,
        complexity := c, aoc := a, language := l, sourceMode := m, pastedText := p }

/-- Validation entry point `GenerationSchema.safeParse`: accepts only objects, validates every
field, reports every failing field, and on success returns the normalized
config (unknown keys are stripped, which the structure does by
construction). -/
def safeParse (j : Json) : Except (List String) GenerationConfig :=
  match j with
  | .obj o => (parseFields o).map mkConfig
  | _ => .error ["root"]

end GenerationSchema

/-! ### Generation Stub: `makeDemoQuiz` (route.ts) -/

/-- Environment for `makeDemoQuiz`: the random quizId suffix and the
current timestamp, the only two nondeterministic inputs. -/
structure DemoEnv where
  quizId : String
  now : String

/-- Question type selector of `makeDemoQuiz`:
`cfg.questionType === "mixed" ? (i % 2 === 0 ? "mcq" : "tf") : cfg.questionType`.
The else branch can only be reached with one of the four concrete types. -/
def qTypeFor (t : QuestionType) (i : ℕ) : QType :=
  match t with
  | .mixed => if i % 2 = 0 then .mcq else .tf
  | .mcq => .mcq
  | .tf => .tf
  | .fib => .fib
  | .theory => .theory

/-- Function `makeDemoQuiz` from route.ts.  `Array.from({length: n})` with
the validated integer `n` is `List.range n.toNat`. -/
def makeDemoQuiz (cfg : GenerationConfig) (env : DemoEnv) : Quiz :=
  let n := cfg.questionCount.toNat
  let questions := (List.range n).map (fun i =>
    let t := qTypeFor cfg.questionType i
    { id := "demo_q_" ++ toString (i + 1)
      type := t
      prompt := "Demo question " ++ toString (i + 1) ++ " — about " ++ cfg.subject
      choices := if t = .mcq then some ["A", "B", "C", "D"] else none
      answer := if t = .mcq then some (Answer.str "A") else some (Answer.str "True")
      explanation := some "Demo explanation." : QuizQuestion })
  { quizId := env.quizId
    title := some cfg.title
    subject := some cfg.subject
    generatedAt := env.now
    questions := questions }

/-! ### Client mock API (src/lib/api.ts) -/

/-- Job lifecycle status of the client mock API. -/
inductive JStatus where
  | pending | processing | done | failed
deriving DecidableEq, Repr

/-- Type `JobStatus` returned by `getJobStatus`. -/
structure JobStatus where
  jobId : String
  status : JStatus
  progress : ℤ
  message : Option String := none
deriving DecidableEq, Repr

/-- Type `InternalJob` of the in-memory `JOB_STORE`.  The `timer` handle is
not data (it only names the interval to clear) and is dropped; `step` is
the interval closure's local counter. -/
structure InternalJob where
  jobId : String
  progress : ℚ
  status : JStatus
  result : Option Quiz := none
  step : ℕ := 0
deriving DecidableEq, Repr

/-- Metadata of one client-side file (`File.name` is all api.ts reads). -/
structure FileMeta where
  name : String
deriving DecidableEq, Repr

/-- The in-memory `JOB_STORE` map, keyed by jobId. -/
abbrev JobStore : Type := List (String × InternalJob)

/-- Map lookup `JOB_STORE.get(jobId)`. -/
def lookupJob (store : JobStore) (jobId : String) : Option InternalJob :=
  match store.find? (fun p => p.1 == jobId) with
  | some p => some p.2
  | none => none

/-- Map update `JOB_STORE.set(jobId, job)`: replaces an existing binding or
appends a new one. -/
def setJob (store : JobStore) (jobId : String) (job : InternalJob) : JobStore :=
  if (store.find? (fun p => p.1 == jobId)).isSome then
    store.map (fun p => if p.1 == jobId then (jobId, job) else p)
  else store ++ [(jobId, job)]

/-- Function `getJobStatus` from api.ts.  It is total: an unknown jobId
yields a failed status with an explanatory message instead of throwing.
`Math.round` is `round` (round half toward positive infinity). -/
def getJobStatus (store : JobStore) (jobId : String) : JobStatus :=
  match lookupJob store jobId with
  | none => { jobId := jobId, status := .failed, progress := 0, message := some "Job not found." }
  | some job =>
      { jobId := jobId
        status := job.status
        progress := round job.progress
        message := if job.status = .done then some "Finished" else none }

/-- Function `getQuiz` from api.ts: `job.result ?? null` for a known job,
null for an unknown one. -/
def getQuiz (store : JobStore) (jobId : String) : Option Quiz :=
  match lookupJob store jobId with
  | none => none
  | some job => job.result

/-- The job record created by `uploadFiles` before simulation starts. -/
def uploadInit (jobId : String) : InternalJob :=
  { jobId := jobId, progress := 0, status := .pending, result := none }

/-- Function `uploadFiles` from api.ts, up to its store write: creates the
pending job record under the freshly drawn `jobId` and stores it
(`simulateProcessing` is then kicked off on that record). -/
def uploadFiles (jobId : String) (store : JobStore) : JobStore :=
  setJob store jobId (uploadInit jobId)

/-- Environment for `buildSampleQuiz`: random quizId suffix, timestamp and
the per-file `Math.random()` confidence draws (already passed through
`toFixed(3)`, hence rationals). -/
structure SampleEnv where
  quizId : String
  now : String
  conf1 : ℕ → ℚ
  conf2 : ℕ → ℚ

/-- Filename without extension: `f.name.replace(/\.[^/.]+$/, "")`.  The
regex strips a final dot followed by one or more characters that are
neither a dot nor a slash. -/
def stripExtName (s : String) : String :=
  let parts := s.splitOn "."
  match parts.getLast? with
  | some last =>
      if parts.length ≥ 2 ∧ last ≠ "" ∧ ¬ last.contains '/' then
        String.intercalate "." (parts.dropLast)
      else s
  | none => s

/-- Function `buildSampleQuiz` from api.ts: two demo questions per file,
in file order. -/
def buildSampleQuiz (files : List FileMeta) (env : SampleEnv) : Quiz :=
  let questions := files.enum.flatMap (fun e =>
    let idx := e.1
    let f := e.2
    let base := stripExtName f.name ++ " â€” sample"
    let q1 : QuizQuestion :=
      { id := "q_" ++ toString idx ++ "_1"
        type := .mcq
        prompt := "Which statement about \"" ++ base ++ "\" is correct?"
        choices := some ["Option A", "Option B", "Option C", "Option D"]
        answer := some (Answer.str "Option A")
        explanation := some "This is a generated example explanation."
        confidence := some (env.conf1 idx)
        tags := some ["example", "topic-" ++ toString (idx % 3 + 1)]
        source := some ("Excerpt from " ++ f.name ++ ": \"" ++ base.take 60 ++ "\"")
        sourceAnchors := some [{ page := some 1, start := some 0, endPos := some 120,
                                 text := some (base.take 120) }]
        status := some .pending }
    let q2 : QuizQuestion :=
      { id := "q_" ++ toString idx ++ "_2"
        type := .tf
        prompt := "True or False: \"" ++ base ++ "\" is covered in the uploaded file."
        answer := some (Answer.str "True")
        explanation := some "Demo true/false question."
        confidence := some (env.conf2 idx)
        tags := some ["truefalse"]
        source := some ("Excerpt from " ++ f.name ++ ": \"" ++ base.take 80 ++ "\"")
        sourceAnchors := some [{ page := some 1, start := some 120, endPos := some 200,
                                 text := some ((base.drop 120).take 80) }]
        status := some .pending }
    [q1, q2])
  { quizId := env.quizId
    title := some ("Demo quiz (" ++ String.intercalate ", " (files.map (fun f => f.name)) ++ ")")
    subject := some "Demo"
    generatedAt := env.now
    questions := questions }

/-- Synchronous prefix of `simulateProcessing`: the looked-up job is set to
`processing` with progress 2 before the interval starts. -/
def simStart (j : InternalJob) : InternalJob :=
  { j with status := .processing, progress := 2 }

/-- One firing of the `simulateProcessing` interval callback, with the
`Math.random()` draw `r` passed in.  `steps` is 12 in the source.  After
the final step the source clears the interval, so a tick on a `done` job
is modelled as the identity. -/
def simTick (files : List FileMeta) (env : SampleEnv) (r : ℚ) (j : InternalJob) : InternalJob :=
  if j.status = .done then j
  else
    let s := j.step + 1
    let p := min 95 (j.progress + r * (100 / 12) + (100 / 12 - 3))
    if s ≥ 12 then
      { j with step := s, progress := 100, status := .done,
               result := some (buildSampleQuiz files env) }
    else
      { j with step := s, progress := p }

/-- Run of the progress simulation over a list of `Math.random()` draws. -/
def simRun (files : List FileMeta) (env : SampleEnv) (rs : List ℚ) (j : InternalJob) : InternalJob :=
  rs.foldl (fun j r => simTick files env r j) j

/-- Observable trace of the simulated job: the pending record created by
`uploadFiles`, then every state reached by `simulateProcessing`. -/
def simTrace (jobId : String) (files : List FileMeta) (env : SampleEnv) (rs : List ℚ) :
    List InternalJob :=
  uploadInit jobId :: List.scanl (fun j r => simTick files env r j) (simStart (uploadInit jobId)) rs

/-! ### Review store (src/stores/useAppStore.ts) -/

/-- A `Partial<QuizQuestion>` patch as passed through the JS spread
`{...question, ...patch}`.  The outer `Option` is key presence; the inner
`Option` on optional fields is the (possibly undefined) value. -/
structure QuestionPatch where
  id : Option String := none
  type : Option QType := none
  prompt : Option String := none
  choices : Option (Option (List String)) := none
  answer : Option (Option Answer) := none
  explanation : Option (Option String) := none
  confidence : Option (Option ℚ) := none
  tags : Option (Option (List String)) := none
  source : Option (Option String) := none
  sourceAnchors : Option (Option (List SourceAnchor)) := none
  status : Option (Option QStatus) := none
deriving DecidableEq, Repr

/-- The JS object spread `{...question, ...patch}`: every key present in
the patch overrides the question's value. -/
def spreadPatch (q : QuizQuestion) (p : QuestionPatch) : QuizQuestion :=
  { id := p.id.getD q.id
    type := p.type.getD q.type
    prompt := p.prompt.getD q.prompt
    choices := p.choices.getD q.choices
    answer := p.answer.getD q.answer
    explanation := p.explanation.getD q.explanation
    confidence := p.confidence.getD q.confidence
    tags := p.tags.getD q.tags
    source := p.source.getD q.source
    sourceAnchors := p.sourceAnchors.getD q.sourceAnchors
    status := p.status.getD q.status }

/-- State held by the zustand store `useAppStore`. -/
structure AppState where
  currentQuiz : Option Quiz := none
  quizzes : List Quiz := []
  selectedQuestionId : Option String := none
deriving DecidableEq, Repr

/-- Store action `setQuiz`: replaces the quiz and auto-selects the first
question if any. -/
def setQuiz (st : AppState) (quiz : Option Quiz) : AppState :=
  { st with
    currentQuiz := quiz
    selectedQuestionId := quiz.bind (fun q => (q.questions.head?).map (fun qq => qq.id)) }

/-- Store action `updateQuestion`: merges the patch into every question
whose id matches; no-op when no quiz is loaded or no id matches. -/
def updateQuestion (st : AppState) (id : String) (patch : QuestionPatch) : AppState :=
  match st.currentQuiz with
  | none => st
  | some q =>
      let nextQuestions := q.questions.map (fun question =>
        if question.id == id then spreadPatch question patch else question)
      { st with currentQuiz := some { q with questions := nextQuestions } }

/-- Store action `acceptQuestion`: `updateQuestion(id, {status: "accepted"})`. -/
def acceptQuestion (st : AppState) (id : String) : AppState :=
  updateQuestion st id { status := some (some .accepted) }

/-- Store action `rejectQuestion`: `updateQuestion(id, {status: "rejected"})`. -/
def rejectQuestion (st : AppState) (id : String) : AppState :=
  updateQuestion st id { status := some (some .rejected) }

/-- Store action `acceptAll`: every question's status becomes accepted. -/
def acceptAll (st : AppState) : AppState :=
  match st.currentQuiz with
  | none => st
  | some q =>
      let updated := q.questions.map (fun question => { question with status := some .accepted })
      { st with currentQuiz := some { q with questions := updated } }

/-- Store action `rejectAll`: every question's status becomes rejected. -/
def rejectAll (st : AppState) : AppState :=
  match st.currentQuiz with
  | none => st
  | some q =>
      let updated := q.questions.map (fun question => { question with status := some .rejected })
      { st with currentQuiz := some { q with questions := updated } }

/-! ### Export engine (src/components/ExportModal.tsx)

`JSON.stringify` is modelled at the JSON-tree level: `encodeQuiz` builds
the object tree that `JSON.stringify` serializes, with optional `none`
fields omitted exactly as `stringify` drops `undefined`-valued keys.  Key
order follows the type declaration / object literal order. -/

def encodeQType : QType → Json
  | .mcq => .str "mcq"
  | .tf => .str "tf"
  | .fib => .str "fib"
  | .theory => .str "theory"

def encodeStatus : QStatus → Json
  | .pending => .str "pending"
  | .accepted => .str "accepted"
  | .rejected => .str "rejected"
  | .regenerated => .str "regenerated"

def encodeAnswer : Answer → Json
  | .str s => .str s
  | .arr xs => .arr (xs.map .str)

/-- Emit a key only when the optional field is present. -/
def optField (k : String) : Option Json → List (String × Json)
  | none => []
  | some v => [(k, v)]

def encodeAnchor (a : SourceAnchor) : Json :=
  .obj (optField "page" (a.page.map .num)
    ++ optField "start" (a.start.map .num)
    ++ optField "end" (a.endPos.map .num)
    ++ optField "text" (a.text.map .str))

/-- Key-value pairs of the object `JSON.stringify` emits for a question. -/
def encodeQuestionFields (q : QuizQuestion) : List (String × Json) :=
  [("id", Json.str q.id), ("type", encodeQType q.type), ("prompt", Json.str q.prompt)]
    ++ optField "choices" (q.choices.map (fun cs => Json.arr (cs.map .str)))
    ++ optField "answer" (q.answer.map encodeAnswer)
    ++ optField "explanation" (q.explanation.map .str)
    ++ optField "confidence" (q.confidence.map .num)
    ++ optField "tags" (q.tags.map (fun ts => Json.arr (ts.map .str)))
    ++ optField "source" (q.source.map .str)
    ++ optField "sourceAnchors" (q.sourceAnchors.map (fun l => Json.arr (l.map encodeAnchor)))
    ++ optField "status" (q.status.map encodeStatus)

def encodeQuestion (q : QuizQuestion) : Json :=
  .obj (encodeQuestionFields q)

/-- Key-value pairs of the object `JSON.stringify` emits for a quiz. -/
def encodeQuizFields (q : Quiz) : List (String × Json) :=
  [("quizId", Json.str q.quizId)]
    ++ optField "title" (q.title.map .str)
    ++ optField "subject" (q.subject.map .str)
    ++ [("generatedAt", Json.str q.generatedAt),
        ("questions", Json.arr (q.questions.map encodeQuestion))]

def encodeQuiz (q : Quiz) : Json :=
  .obj (encodeQuizFields q)

/-- Store helper `exportCurrentQuizJSON`: `JSON.stringify(q, null, 2)` of
the current quiz (as its JSON tree), or null when no quiz is loaded.
`stringify` cannot throw on these values, so the catch branch is dead. -/
def exportCurrentQuizJSON (st : AppState) : Option Json :=
  st.currentQuiz.map encodeQuiz

/-- The `{...quiz, questions: quiz.questions.map(q => ({...q, answer: undefined}))}`
value built by `doDownload` when answers are excluded. -/
def stripAnswersQuiz (q : Quiz) : Quiz :=
  { q with questions := q.questions.map (fun question => { question with answer := none }) }

/-- The JSON document downloaded by `doDownload(fmt = "json")`: the quiz
itself when answers are included, else the answer-stripped copy (the
`answer: undefined` keys vanish under `JSON.stringify`). -/
def doDownloadJsonData (quiz : Quiz) (includeAnswers : Bool) : Json :=
  encodeQuiz (if includeAnswers then quiz else stripAnswersQuiz quiz)

/-! ### Parsing an exported document back (decoder)

Modelled from the spec: the round-trip property talks about "parsing the
result back", an operation the repository itself does not contain.  The
decoder below is the natural strict reader of the `Quiz` shape. -/

def asStr : Json → Option String
  | .str s => some s
  | _ => none

def asNum : Json → Option ℚ
  | .num q => some q
  | _ => none

def decodeQType : Json → Option QType
  | .str "mcq" => some .mcq
  | .str "tf" => some .tf
  | .str "fib" => some .fib
  | .str "theory" => some .theory
  | _ => none

def decodeStatus : Json → Option QStatus
  | .str "pending" => some .pending
  | .str "accepted" => some .accepted
  | .str "rejected" => some .rejected
  | .str "regenerated" => some .regenerated
  | _ => none

def asStrList : Json → Option (List String)
  | .arr xs => GenerationSchema.asStringList xs
  | _ => none

def decodeAnswer : Json → Option Answer
  | .str s => some (.str s)
  | .arr xs => (GenerationSchema.asStringList xs).map .arr
  | _ => none

/-- Decode an optional key: absent is `none`; a present key must decode. -/
def decodeOpt {α : Type} (f : Json → Option α) : Option Json → Option (Option α)
  | none => some none
  | some v => (f v).map some

/-- Decode every element of a JSON array. -/
def decodeList {α : Type} (f : Json → Option α) : List Json → Option (List α)
  | [] => some []
  | x :: xs => do
      let a ← f x
      let rest ← decodeList f xs
      pure (a :: rest)

def decodeAnchor : Json → Option SourceAnchor
  | .obj o => do
      let p ← decodeOpt asNum (getField o "page")
      let s ← decodeOpt asNum (getField o "start")
      let e ← decodeOpt asNum (getField o "end")
      let t ← decodeOpt asStr (getField o "text")
      pure { page := p, start := s, endPos := e, text := t }
  | _ => none

def decodeAnchorList : Json → Option (List SourceAnchor)
  | .arr xs => decodeList decodeAnchor xs
  | _ => none

def decodeQuestion : Json → Option QuizQuestion
  | .obj o => do
      let i ← (getField o "id").bind asStr
      let ty ← (getField o "type").bind decodeQType
      let pr ← (getField o "prompt").bind asStr
      let ch ← decodeOpt asStrList (getField o "choices")
      let an ← decodeOpt decodeAnswer (getField o "answer")
      let ex ← decodeOpt asStr (getField o "explanation")
      let co ← decodeOpt asNum (getField o "confidence")
      let tg ← decodeOpt asStrList (getField o "tags")
      let so ← decodeOpt asStr (getField o "source")
      let sa ← decodeOpt decodeAnchorList (getField o "sourceAnchors")
      let st ← decodeOpt decodeStatus (getField o "status")
      pure { id := i, type := ty, prompt := pr, choices := ch, answer := an,
             explanation := ex, confidence := co, tags := tg, source := so,
             sourceAnchors := sa, status := st }
  | _ => none

def decodeQuestionArr : Json → Option (List QuizQuestion)
  | .arr xs => decodeList decodeQuestion xs
  | _ => none

def decodeQuiz : Json → Option Quiz
  | .obj o => do
      let qi ← (getField o "quizId").bind asStr
      let ti ← decodeOpt asStr (getField o "title")
      let su ← decodeOpt asStr (getField o "subject")
      let ga ← (getField o "generatedAt").bind asStr
      let qs ← (getField o "questions").bind decodeQuestionArr
      pure { quizId := qi, title := ti, subject := su, generatedAt := ga, questions := qs }
  | _ => none

/-! ### A JSON text parser (model of `JSON.parse` on strings)

Only the `aoc` comma-or-JSON fallback of the multipart branch applies
`JSON.parse` to a string the model still holds as a string, so a small
recursive-descent parser is included.  It follows the JSON grammar
(whitespace, literals, strings with escapes, numbers with fraction and
exponent, arrays, objects); fuel bounds the recursion and is generous
enough for any input the endpoint can receive. -/

namespace JsonText

def openBrace : Char := Char.ofNat 123

def closeBrace : Char := Char.ofNat 125

def isWs (c : Char) : Bool := c = ' ' ∨ c = '\t' ∨ c = '\n' ∨ c = '\r'

def skipWs : List Char → List Char
  | c :: cs => if isWs c then skipWs cs else c :: cs
  | [] => []

def isDigitChar (c : Char) : Bool := '0' ≤ c ∧ c ≤ '9'

def hexVal (c : Char) : Option ℕ :=
  if '0' ≤ c ∧ c ≤ '9' then some (c.toNat - '0'.toNat)
  else if 'a' ≤ c ∧ c ≤ 'f' then some (c.toNat - 'a'.toNat + 10)
  else if 'A' ≤ c ∧ c ≤ 'F' then some (c.toNat - 'A'.toNat + 10)
  else none

def escChar (c : Char) : Option Char :=
  if c = '"' then some '"'
  else if c = '\\' then some '\\'
  else if c = '/' then some '/'
  else if c = 'b' then some (Char.ofNat 8)
  else if c = 'f' then some (Char.ofNat 12)
  else if c = 'n' then some '\n'
  else if c = 'r' then some '\r'
  else if c = 't' then some '\t'
  else none

/-- Body of a JSON string after the opening quote. -/
def parseStringBody : List Char → Option (String × List Char)
  | [] => none
  | '"' :: rest => some ("", rest)
  | '\\' :: 'u' :: a :: b :: c :: d :: rest =>
      (match hexVal a, hexVal b, hexVal c, hexVal d with
       | some x, some y, some z, some w =>
           (parseStringBody rest).map (fun p =>
             (String.singleton (Char.ofNat (((x * 16 + y) * 16 + z) * 16 + w)) ++ p.1, p.2))
       | _, _, _, _ => none)
  | '\\' :: e :: rest =>
      (match escChar e with
       | some c => (parseStringBody rest).map (fun p => (String.singleton c ++ p.1, p.2))
       | none => none)
  | c :: rest => (parseStringBody rest).map (fun p => (String.singleton c ++ p.1, p.2))

def digitsToNat (ds : List Char) : ℕ :=
  ds.foldl (fun n c => n * 10 + (c.toNat - '0'.toNat)) 0

/-- Optional fraction part `.digits`. -/
def parseFrac : List Char → Option (List Char × List Char)
  | '.' :: t =>
      let d := t.takeWhile isDigitChar
      if d = [] then none else some (d, t.dropWhile isDigitChar)
  | cs => some ([], cs)

/-- Optional exponent part `e[+-]digits`. -/
def parseExp : List Char → Option (ℤ × List Char)
  | c :: t =>
      if c = 'e' ∨ c = 'E' then
        let sgn : ℤ × List Char :=
          match t with
          | '+' :: u => (1, u)
          | '-' :: u => (-1, u)
          | _ => (1, t)
        let d := sgn.2.takeWhile isDigitChar
        if d = [] then none
        else some (sgn.1 * (digitsToNat d : ℤ), sgn.2.dropWhile isDigitChar)
      else some (0, c :: t)
  | [] => some (0, [])

def parseNumber (cs : List Char) : Option (Json × List Char) := do
  let signed : Bool × List Char :=
    match cs with
    | '-' :: t => (true, t)
    | _ => (false, cs)
  let ip := signed.2.takeWhile isDigitChar
  if ip = [] then none
  else do
    let (fp, r1) ← parseFrac (signed.2.dropWhile isDigitChar)
    let (e, r2) ← parseExp r1
    let mag : ℚ := ((digitsToNat ip : ℚ) + (digitsToNat fp : ℚ) / (10 : ℚ) ^ fp.length)
      * (10 : ℚ) ^ e
    pure (Json.num (if signed.1 then -mag else mag), r2)

mutual

def parseVal : ℕ → List Char → Option (Json × List Char)
  | 0, _ => none
  | fuel + 1, cs =>
      match skipWs cs with
      | 'n' :: 'u' :: 'l' :: 'l' :: rest => some (.null, rest)
      | 't' :: 'r' :: 'u' :: 'e' :: rest => some (.bool true, rest)
      | 'f' :: 'a' :: 'l' :: 's' :: 'e' :: rest => some (.bool false, rest)
      | '"' :: rest => (parseStringBody rest).map (fun p => (.str p.1, p.2))
      | '[' :: rest =>
          (match skipWs rest with
           | ']' :: r2 => some (.arr [], r2)
           | r2 => parseItems fuel r2 [])
      | c :: rest =>
          if c = openBrace then
            (match skipWs rest with
             | c2 :: r2 =>
                 if c2 = closeBrace then some (.obj [], r2)
                 else parseFields fuel (c2 :: r2) []
             | [] => none)
          else if isDigitChar c ∨ c = '-' then parseNumber (c :: rest)
          else none
      | [] => none

def parseItems : ℕ → List Char → List Json → Option (Json × List Char)
  | 0, _, _ => none
  | fuel + 1, cs, acc => do
      let (v, r) ← parseVal fuel cs
      match skipWs r with
      | ',' :: r2 => parseItems fuel r2 (acc ++ [v])
      | ']' :: r2 => some (.arr (acc ++ [v]), r2)
      | _ => none

def parseFields : ℕ → List Char → List (String × Json) → Option (Json × List Char)
  | 0, _, _ => none
  | fuel + 1, cs, acc =>
      match skipWs cs with
      | '"' :: rest => do
          let (k, r) ← parseStringBody rest
          match skipWs r with
          | ':' :: r2 => do
              let (v, r3) ← parseVal fuel r2
              (match skipWs r3 with
               | ',' :: r4 => parseFields fuel r4 (acc ++ [(k, v)])
               | c :: r4 =>
                   if c = closeBrace then some (.obj (acc ++ [(k, v)]), r4) else none
               | [] => none)
          | _ => none
      | _ => none

end

end JsonText

/-- Model of `JSON.parse` applied to a string: `none` when it throws. -/
def jsonParse? (s : String) : Option Json := do
  let cs := s.toList
  let (v, rest) ← JsonText.parseVal (2 * cs.length + 2) cs
  if JsonText.skipWs rest = [] then some v else none

/-! ### Job Submission Endpoint (route.ts `POST`) -/

/-- One uploaded file as formidable hands it over (already written to the
OS temp directory; only these three properties are read). -/
structure UploadedFile where
  newFilename : Option String := none
  originalFilename : Option String := none
  filepath : String
deriving DecidableEq, Repr

/-- The nondeterministic inputs of one `POST` invocation. -/
structure ReqEnv where
  jobId : String
  quizId : String
  now : String
  nowMs : ℕ
  cwd : String
deriving DecidableEq, Repr

/-- A persisted job record (`jobMeta` written to `jobs/jobId.json`). -/
structure JobMeta where
  jobId : String
  status : String
  jobType : Option String := none
  createdAt : String
  payload : GenerationConfig
  result : Option Quiz := none
  files : Option (List String) := none
deriving DecidableEq, Repr

/-- File-system side effects of the endpoint: job records written under
jobs/, file paths persisted under uploads/jobId, directories created. -/
structure FsState where
  jobs : List JobMeta := []
  persisted : List String := []
  dirs : List String := []
deriving DecidableEq, Repr

/-- An incoming request, already split on the content-type checks of the
handler.  For `jsonReq`, `body` is the result of `req.json()` (`none`
when the body is malformed).  For `multipartReq`, `payload` is the
`payload` form field when present, holding its `JSON.parse` outcome
(`none` when that parse throws); `fields` are the remaining simple string
fields; `files` is the formidable files object (field name to file list,
a single file being a one-element list). -/
inductive Request where
  | jsonReq (body : Option Json)
  | multipartReq (payload : Option (Option Json)) (fields : List (String × String))
      (files : List (String × List UploadedFile))
  | otherReq

/-- The HTTP response as built through `NextResponse.json`. -/
structure Response where
  status : ℕ
  error : Option String := none
  details : Option (List String) := none
  jobId : Option String := none
  jobStatus : Option String := none
  quiz : Option Quiz := none
  message : Option String := none
deriving DecidableEq, Repr

/-- Coercion `Number(payloadObj.questionCount)` applied to a form-field
string.  Modelled for decimal integers; other numeric spellings come out
as `nan`, which the schema rejects (the coerced value only feeds the
integer-range check). -/
def jsNumber (s : String) : Json :=
  match s.toInt? with
  | some n => .num (n : ℚ)
  | none => .nan

/-- Coercion of a string-valued `aoc` form field: `JSON.parse` if it
parses, else split on commas, trim, and drop empty entries
(`filter(Boolean)`). -/
def aocCoerce (s : String) : Json :=
  match jsonParse? s with
  | some j => j
  | none =>
      .arr ((((s.splitOn ",").map (fun t => t.trim)).filter (fun t => t ≠ "")).map .str)

/-- Reconstruction of `payloadObj` from discrete form fields
(`{...fields}` plus the numeric and aoc coercions). -/
def coerceFields (fields : List (String × String)) : Json :=
  .obj (fields.map (fun p =>
    if p.1 == "questionCount" then (p.1, jsNumber p.2)
    else if p.1 == "aoc" then (p.1, aocCoerce p.2)
    else (p.1, Json.str p.2)))

/-- The `payloadObj` the multipart branch validates: the parsed `payload`
field when present (`none` = the branch answers 400), else the
reconstruction from discrete fields. -/
def buildPayloadObj (payload : Option (Option Json)) (fields : List (String × String)) :
    Option Json :=
  match payload with
  | some none => none
  | some (some j) => some j
  | none => some (coerceFields fields)

/-- Saved filename: `f.newFilename ?? f.originalFilename ?? file-Date.now()`. -/
def fileSaveName (f : UploadedFile) (env : ReqEnv) : String :=
  f.newFilename.getD (f.originalFilename.getD ("file-" ++ toString env.nowMs))

/-- Function `persistUploadedFile`: the returned durable path.  Its disk
effect (mkdir + rename, or the copy-and-unlink fallback on a cross-device
failure) is recorded in `FsState.persisted`; which of the two move paths
ran is not observable in the result. -/
def persistUploadedFile (jobDir : String) (name : String) : String :=
  jobDir ++ "/" ++ name

/-- All paths saved by the file loop of the multipart branch, in field and
list order (an absent file value is an empty list and is skipped). -/
def savedPaths (files : List (String × List UploadedFile)) (jobDir : String)
    (env : ReqEnv) : List String :=
  files.flatMap (fun e => e.2.map (fun f => persistUploadedFile jobDir (fileSaveName f env)))

/-- The `POST` handler of route.ts over the explicit file-system state.
Every side effect happens only after `safeParse` succeeds. -/
def POST (req : Request) (env : ReqEnv) (st : FsState) : Response × FsState :=
  match req with
  | .jsonReq none =>
      ({ status := 400, error := some "Invalid JSON body" }, st)
  | .jsonReq (some body) =>
      (match GenerationSchema.safeParse body with
       | .error e =>
           ({ status := 400, error := some "Invalid payload", details := some e }, st)
       | .ok cfg =>
           let quiz := makeDemoQuiz cfg { quizId := env.quizId, now := env.now }
           let jobsRoot := env.cwd ++ "/jobs"
           let meta : JobMeta :=
             { jobId := env.jobId, status := "done", jobType := some "demo",
               createdAt := env.now, payload := cfg, result := some quiz }
           ({ status := 200, jobId := some env.jobId, jobStatus := some "done",
              quiz := some quiz },
            { st with dirs := st.dirs ++ [jobsRoot], jobs := st.jobs ++ [meta] }))
  | .multipartReq payload fields files =>
      (match buildPayloadObj payload fields with
       | none =>
           ({ status := 400, error := some "Invalid payload JSON in multipart form" }, st)
       | some payloadObj =>
           (match GenerationSchema.safeParse payloadObj with
            | .error e =>
                ({ status := 400, error := some "Invalid payload", details := some e }, st)
            | .ok cfg =>
                let jobDir := env.cwd ++ "/uploads/" ++ env.jobId
                let saved := savedPaths files jobDir env
                let jobsRoot := env.cwd ++ "/jobs"
                let meta : JobMeta :=
                  { jobId := env.jobId, status := "queued", createdAt := env.now,
                    payload := cfg, files := some saved }
                ({ status := 200, jobId := some env.jobId, jobStatus := some "queued",
                   message := some "Files saved and job queued" },
                 { st with dirs := st.dirs ++ [jobDir, jobsRoot],
                           persisted := st.persisted ++ saved,
                           jobs := st.jobs ++ [meta] })))
  | .otherReq =>
      ({ status := 415,
         error := some "Unsupported Content-Type. Use application/json or multipart/form-data" },
       st)

/-- Decision of the rejection cases named by the error-handling contract:
malformed JSON body, malformed multipart payload JSON, or schema
validation failure. -/
def isRejectedInput : Request → Bool
  | .jsonReq none => true
  | .jsonReq (some b) => !(GenerationSchema.safeParse b).isOk
  | .multipartReq payload fields _ =>
      (match buildPayloadObj payload fields with
       | none => true
       | some obj => !(GenerationSchema.safeParse obj).isOk)
  | .otherReq => false

/-! ### Concrete inputs used by witnesses and counterexamples, and the
invariants named by the lifecycle theorems -/

def fieldsA : List (String × Json) := [("title", .str "T"), ("subject", .str "Biology"),
  ("questionCount", .num 4), ("questionType", .str "mcq"), ("complexity", .str "HighSchool")]

def inputA : Json := .obj fieldsA

def inputMixed : Json := .obj [("title", .str "T"), ("subject", .str "Biology"),
  ("questionCount", .num 4), ("questionType", .str "mixed"), ("complexity", .str "HighSchool")]

def cfgA : GenerationConfig :=
  { title := "T", subject := "Biology", questionCount := 4,
    questionType := .mcq, complexity := .highSchool }

def cfgMixed : GenerationConfig := { cfgA with questionType := .mixed }

def envA : DemoEnv := { quizId := "demo_x1", now := "2026-01-01T00:00:00.000Z" }

def envR : ReqEnv := { jobId := "J1", quizId := "quiz_w", now := "2026-01-01T00:00:00.000Z",
                       nowMs := 1767225600000, cwd := "/app" }

def quizC4 : Quiz :=
  { quizId := "z", generatedAt := "g",
    questions := [{ id := "q_1", type := .mcq, prompt := "p" }] }

def stC4 : AppState := { currentQuiz := some quizC4 }

/-- Invariant maintained by the progress simulation: a finished job sits at
exactly 100, an unfinished one never above the 95 cap. -/
def ProgressInv (j : InternalJob) : Prop :=
  (j.status = .done → j.progress = 100) ∧ (j.status ≠ .done → j.progress ≤ 95)

def envS : SampleEnv :=
  { quizId := "quiz_w", now := "2026-01-01T00:00:00.000Z",
    conf1 := fun _ => 7/10, conf2 := fun _ => 3/5 }

/-- One-step status relation of the simulated lifecycle: a tick keeps the
status or finishes the job, and the upload handoff goes pending to
processing. -/
def statusStep (a b : JStatus) : Prop :=
  a = b ∨ b = .done ∨ (a = .pending ∧ b = .processing)

def quizC7 : Quiz :=
  { quizId := "z7", title := some "T7", generatedAt := "g7",
    questions :=
      [{ id := "q_1", type := .mcq, prompt := "p1", choices := some ["a", "b"],
         answer := some (.str "a"), status := some .pending },
       { id := "q_2", type := .tf, prompt := "p2",
         answer := some (.str "True"), status := some .pending }] }

def stC7 : AppState := { currentQuiz := some quizC7 }

/-! ### Theorems -/

theorem zBoth_ok {α β : Type} {a : Except (List String) α} {b : Except (List String) β}
    {x : α} {y : β} (h : GenerationSchema.zBoth a b = .ok (x, y)) :
    a = .ok x ∧ b = .ok y := by
  cases a <;> cases b <;> simp_all [GenerationSchema.zBoth]

theorem safeParse_ok_inv {j : Json} {cfg : GenerationConfig}
    (h : GenerationSchema.safeParse j = .ok cfg) :
    ∃ o, j = .obj o ∧
      GenerationSchema.parseNonEmptyString o "title" = .ok cfg.title ∧
      GenerationSchema.parseNonEmptyString o "subject" = .ok cfg.subject ∧
      GenerationSchema.parseQuestionCount o = .ok cfg.questionCount ∧
      GenerationSchema.parseQuestionType o = .ok cfg.questionType ∧
      GenerationSchema.parseComplexity o = .ok cfg.complexity ∧
      GenerationSchema.parseAoc o = .ok cfg.aoc ∧
      GenerationSchema.parseOptString o "language" = .ok cfg.language ∧
      GenerationSchema.parseSourceMode o = .ok cfg.sourceMode ∧
      GenerationSchema.parseOptString o "pastedText" = .ok cfg.pastedText := by
  cases j with
  | obj o =>
      refine ⟨o, rfl, ?_⟩
      simp only [GenerationSchema.safeParse] at h
      rcases hfp : GenerationSchema.parseFields o with e | t9
      · rw [hfp] at h; simp [Except.map] at h
      · rw [hfp] at h
        obtain ⟨t, s, n, ty, c, a, l, m, p⟩ := t9
        simp only [Except.map, GenerationSchema.mkConfig, Except.ok.injEq] at h
        subst h
        obtain ⟨h1, h2⟩ := zBoth_ok hfp
        obtain ⟨h2a, h3⟩ := zBoth_ok h2
        obtain ⟨h3a, h4⟩ := zBoth_ok h3
        obtain ⟨h4a, h5⟩ := zBoth_ok h4
        obtain ⟨h5a, h6⟩ := zBoth_ok h5
        obtain ⟨h6a, h7⟩ := zBoth_ok h6
        obtain ⟨h7a, h8⟩ := zBoth_ok h7
        obtain ⟨h8a, h8b⟩ := zBoth_ok h8
        exact ⟨h1, h2a, h3a, h4a, h5a, h6a, h7a, h8a, h8b⟩
  | null => simp [GenerationSchema.safeParse] at h
  | bool b => simp [GenerationSchema.safeParse] at h
  | num q => simp [GenerationSchema.safeParse] at h
  | nan => simp [GenerationSchema.safeParse] at h
  | str s => simp [GenerationSchema.safeParse] at h
  | arr l => simp [GenerationSchema.safeParse] at h

theorem parseQuestionCount_ok_bounds {o : List (String × Json)} {n : ℤ}
    (h : GenerationSchema.parseQuestionCount o = .ok n) : 1 ≤ n ∧ n ≤ 100 := by
  unfold GenerationSchema.parseQuestionCount at h
  split at h
  next q heq =>
    split at h
    next hcond => cases h; exact ⟨hcond.2.1, hcond.2.2⟩
    next => simp at h
  next => simp at h

theorem safeParse_ok_count_bounds {j : Json} {cfg : GenerationConfig}
    (h : GenerationSchema.safeParse j = .ok cfg) :
    1 ≤ cfg.questionCount ∧ cfg.questionCount ≤ 100 := by
  obtain ⟨o, -, -, -, hc, -⟩ := safeParse_ok_inv h
  exact parseQuestionCount_ok_bounds hc

/-- Claim C1 (amended): for every accepted configuration with questionCount n,
makeDemoQuiz returns exactly n questions, in order, the 1-based i-th carrying
id "demo_q_i". -/
theorem makeDemoQuiz_count_and_ids (j : Json) (cfg : GenerationConfig) (env : DemoEnv)
    (n : ℤ) (hok : GenerationSchema.safeParse j = .ok cfg) (hn : cfg.questionCount = n) :
    ((makeDemoQuiz cfg env).questions.length : ℤ) = n ∧
    ∀ i : ℕ, ∀ h : i < (makeDemoQuiz cfg env).questions.length,
      ((makeDemoQuiz cfg env).questions.get ⟨i, h⟩).id = "demo_q_" ++ toString (i + 1) := by
  have hb := safeParse_ok_count_bounds hok
  constructor
  · simp only [makeDemoQuiz, List.length_map, List.length_range]
    omega
  · intro i h
    simp only [makeDemoQuiz, List.get_eq_getElem, List.getElem_map, List.getElem_range]

theorem makeDemoQuiz_count_and_ids_witness :
    GenerationSchema.safeParse inputA = .ok cfgA ∧ cfgA.questionCount = 4 ∧
      (((makeDemoQuiz cfgA envA).questions.length : ℤ) = 4 ∧
       ∀ i : ℕ, ∀ h : i < (makeDemoQuiz cfgA envA).questions.length,
         ((makeDemoQuiz cfgA envA).questions.get ⟨i, h⟩).id = "demo_q_" ++ toString (i + 1)) :=
  ⟨by rfl, by rfl, makeDemoQuiz_count_and_ids inputA cfgA envA 4 (by rfl) (by rfl)⟩

/-- Claim C1 counterexample: the configuration accepted from `inputA` yields
first question id "demo_q_1", not "1": question ids are not the bare numerals
1..questionCount. -/
theorem makeDemoQuiz_ids_not_bare_numerals :
    GenerationSchema.safeParse inputA = .ok cfgA ∧
    ((makeDemoQuiz cfgA envA).questions.map (fun q => q.id)).head? = some "demo_q_1" ∧
    "demo_q_1" ≠ "1" := by
  refine ⟨by rfl, by rfl, by decide⟩

/-- Claim C2: with questionType mixed, the generated questions alternate
mcq at even 0-based indices and tf at odd indices. -/
theorem makeDemoQuiz_mixed_alternates (j : Json) (cfg : GenerationConfig) (env : DemoEnv)
    (n : ℤ) (hok : GenerationSchema.safeParse j = .ok cfg)
    (hmix : cfg.questionType = .mixed) (hn : cfg.questionCount = n) :
    ((makeDemoQuiz cfg env).questions.length : ℤ) = n ∧
    ∀ i : ℕ, ∀ h : i < (makeDemoQuiz cfg env).questions.length,
      ((makeDemoQuiz cfg env).questions.get ⟨i, h⟩).type
        = if i % 2 = 0 then QType.mcq else QType.tf := by
  have hb := safeParse_ok_count_bounds hok
  constructor
  · simp only [makeDemoQuiz, List.length_map, List.length_range]
    omega
  · intro i h
    simp only [makeDemoQuiz, List.get_eq_getElem, List.getElem_map, List.getElem_range,
      hmix, qTypeFor]

theorem makeDemoQuiz_mixed_alternates_witness :
    GenerationSchema.safeParse inputMixed = .ok cfgMixed ∧ cfgMixed.questionType = .mixed ∧
      cfgMixed.questionCount = 4 ∧
      (((makeDemoQuiz cfgMixed envA).questions.length : ℤ) = 4 ∧
       ∀ i : ℕ, ∀ h : i < (makeDemoQuiz cfgMixed envA).questions.length,
         ((makeDemoQuiz cfgMixed envA).questions.get ⟨i, h⟩).type
           = if i % 2 = 0 then QType.mcq else QType.tf) :=
  ⟨by rfl, by rfl, by rfl,
   makeDemoQuiz_mixed_alternates inputMixed cfgMixed envA 4 (by rfl) (by rfl) (by rfl)⟩

/-- Claim C5 (amended): when the aoc field is absent from an accepted input,
the normalized config leaves aoc absent (none); no empty-list default is
applied. -/
theorem safeParse_absent_aoc (o : List (String × Json)) (cfg : GenerationConfig)
    (habs : getField o "aoc" = none)
    (hok : GenerationSchema.safeParse (.obj o) = .ok cfg) :
    cfg.aoc = none := by
  obtain ⟨o2, hobj, -, -, -, -, -, ha, -⟩ := safeParse_ok_inv hok
  cases hobj
  unfold GenerationSchema.parseAoc at ha
  rw [habs] at ha
  simp only [Except.ok.injEq] at ha
  exact ha.symm

theorem safeParse_absent_aoc_witness :
    getField fieldsA "aoc" = none ∧
    GenerationSchema.safeParse (.obj fieldsA) = .ok cfgA ∧ cfgA.aoc = none :=
  ⟨by rfl, by rfl,
   safeParse_absent_aoc fieldsA cfgA (by rfl) (by rfl)⟩

/-- Claim C5 counterexample: the accepted input `inputA` has no aoc field and
the normalized config carries aoc = none, which is not the empty list. -/
theorem safeParse_absent_aoc_not_empty_list :
    GenerationSchema.safeParse inputA = .ok cfgA ∧ cfgA.aoc ≠ some [] := by
  exact ⟨by rfl, by simp [cfgA]⟩

/-- Claim C6: getJobStatus on an unknown jobId returns status failed with
progress 0 and the explanatory message; it is a total function of its inputs
and cannot throw. -/
theorem getJobStatus_unknown (store : JobStore) (jobId : String)
    (h : lookupJob store jobId = none) :
    getJobStatus store jobId =
      { jobId := jobId, status := .failed, progress := 0, message := some "Job not found." } := by
  simp [getJobStatus, h]

theorem getJobStatus_unknown_witness :
    lookupJob [] "missing" = none ∧
    getJobStatus [] "missing" =
      { jobId := "missing", status := .failed, progress := 0, message := some "Job not found." } :=
  ⟨by rfl, getJobStatus_unknown [] "missing" (by rfl)⟩

/-- Claim C3: every rejected submission (malformed JSON body, malformed
multipart payload JSON, or schema validation failure) gets a structured 400
response and leaves the file-system state untouched: no job record, no
persisted file, no directory. -/
theorem post_rejected_no_side_effects (req : Request) (env : ReqEnv) (st : FsState)
    (h : isRejectedInput req = true) :
    (POST req env st).1.status = 400 ∧ (POST req env st).1.error.isSome = true ∧
    (POST req env st).2 = st := by
  cases req with
  | jsonReq body =>
      cases body with
      | none => exact ⟨rfl, rfl, rfl⟩
      | some b =>
          rcases hsp : GenerationSchema.safeParse b with e | cfg
          · simp [POST, hsp]
          · simp [isRejectedInput, hsp, Except.isOk, Except.toBool] at h
  | multipartReq payload fields files =>
      rcases hb : buildPayloadObj payload fields with _ | obj
      · simp [POST, hb]
      · rcases hsp : GenerationSchema.safeParse obj with e | cfg
        · simp [POST, hb, hsp]
        · simp [isRejectedInput, hb, hsp, Except.isOk, Except.toBool] at h
  | otherReq => simp [isRejectedInput] at h

theorem post_rejected_no_side_effects_witness :
    isRejectedInput (.jsonReq none) = true ∧
    ((POST (.jsonReq none) envR {}).1.status = 400 ∧
     (POST (.jsonReq none) envR {}).1.error.isSome = true ∧
     (POST (.jsonReq none) envR {}).2 = {}) :=
  ⟨by rfl, post_rejected_no_side_effects (.jsonReq none) envR {} (by rfl)⟩

/-- Claim C4 (amended): updateQuestion leaves every question id unchanged
whenever the patch does not carry an id key, or carries one equal to the
targeted id; the wrappers acceptQuestion, rejectQuestion and the editor
save satisfy this condition, making ids immutable under them. -/
theorem updateQuestion_preserves_ids (st : AppState) (id : String) (patch : QuestionPatch)
    (h : patch.id = none ∨ patch.id = some id) :
    (updateQuestion st id patch).currentQuiz.map (fun q => q.questions.map QuizQuestion.id)
      = st.currentQuiz.map (fun q => q.questions.map QuizQuestion.id) := by
  rcases hq : st.currentQuiz with _ | q
  · simp [updateQuestion, hq]
  · simp only [updateQuestion, hq, Option.map_some', Option.some.injEq, List.map_map]
    apply List.map_congr_left
    intro a _
    by_cases hid : a.id = id
    · rcases h with h | h <;> simp [hid, spreadPatch, h]
    · simp [hid]

theorem updateQuestion_preserves_ids_witness :
    ((QuestionPatch.mk none none none none none none none none none none
        (some (some .accepted))).id = none ∨
     (QuestionPatch.mk none none none none none none none none none none
        (some (some .accepted))).id = some "q_1") ∧
    (updateQuestion stC4 "q_1"
        (QuestionPatch.mk none none none none none none none none none none
          (some (some .accepted)))).currentQuiz.map (fun q => q.questions.map QuizQuestion.id)
      = stC4.currentQuiz.map (fun q => q.questions.map QuizQuestion.id) :=
  ⟨Or.inl rfl,
   updateQuestion_preserves_ids stC4 "q_1" _ (Or.inl rfl)⟩

/-- Claim C4 counterexample: a patch carrying a different id rewrites the
question id through updateQuestion, so ids are not immutable under arbitrary
patches. -/
theorem updateQuestion_can_change_id :
    (updateQuestion stC4 "q_1" { id := some "q_x" }).currentQuiz.map
        (fun q => q.questions.map QuizQuestion.id) = some ["q_x"] ∧
    some ["q_x"] ≠ some ["q_1"] := by
  constructor
  · decide
  · simp

/-- Claim C7: acceptQuestion on a loaded quiz containing the id sets exactly
the matching question's status to accepted and changes nothing else: every
other field of every question, the question order and the quiz metadata are
untouched. -/
theorem acceptQuestion_frame (st : AppState) (quiz : Quiz) (qid : String)
    (hq : st.currentQuiz = some quiz)
    (hex : ∃ q ∈ quiz.questions, q.id = qid) :
    ∃ quiz', (acceptQuestion st qid).currentQuiz = some quiz' ∧
      quiz'.quizId = quiz.quizId ∧ quiz'.title = quiz.title ∧
      quiz'.subject = quiz.subject ∧ quiz'.generatedAt = quiz.generatedAt ∧
      quiz'.questions.length = quiz.questions.length ∧
      ∀ i : ℕ, ∀ h1 : i < quiz'.questions.length, ∀ h2 : i < quiz.questions.length,
        (quiz'.questions.get ⟨i, h1⟩).id = (quiz.questions.get ⟨i, h2⟩).id ∧
        (quiz'.questions.get ⟨i, h1⟩).type = (quiz.questions.get ⟨i, h2⟩).type ∧
        (quiz'.questions.get ⟨i, h1⟩).prompt = (quiz.questions.get ⟨i, h2⟩).prompt ∧
        (quiz'.questions.get ⟨i, h1⟩).choices = (quiz.questions.get ⟨i, h2⟩).choices ∧
        (quiz'.questions.get ⟨i, h1⟩).answer = (quiz.questions.get ⟨i, h2⟩).answer ∧
        (quiz'.questions.get ⟨i, h1⟩).explanation = (quiz.questions.get ⟨i, h2⟩).explanation ∧
        (quiz'.questions.get ⟨i, h1⟩).confidence = (quiz.questions.get ⟨i, h2⟩).confidence ∧
        (quiz'.questions.get ⟨i, h1⟩).tags = (quiz.questions.get ⟨i, h2⟩).tags ∧
        (quiz'.questions.get ⟨i, h1⟩).source = (quiz.questions.get ⟨i, h2⟩).source ∧
        (quiz'.questions.get ⟨i, h1⟩).sourceAnchors = (quiz.questions.get ⟨i, h2⟩).sourceAnchors ∧
        (quiz'.questions.get ⟨i, h1⟩).status
          = (if (quiz.questions.get ⟨i, h2⟩).id = qid then some QStatus.accepted
             else (quiz.questions.get ⟨i, h2⟩).status) := by
  refine ⟨{ quiz with questions := quiz.questions.map (fun question =>
      if question.id == qid then spreadPatch question { status := some (some QStatus.accepted) }
      else question) }, ?_, rfl, rfl, rfl, rfl, by simp, ?_⟩
  · simp [acceptQuestion, updateQuestion, hq]
  · intro i h1 h2
    simp only [List.get_eq_getElem, List.getElem_map]
    by_cases hid : (quiz.questions[i]).id = qid
    · simp [hid, spreadPatch]
    · simp [hid]

theorem simTick_progress_le (files : List FileMeta) (env : SampleEnv) (r : ℚ)
    (j : InternalJob) (hr : 0 ≤ r) (hInv : ProgressInv j) :
    j.progress ≤ (simTick files env r j).progress ∧ ProgressInv (simTick files env r j) := by
  by_cases hdone : j.status = .done
  · simp [simTick, hdone]
    exact hInv
  · have hle : j.progress ≤ 95 := hInv.2 hdone
    rw [simTick, if_neg hdone]
    by_cases hstep : j.step + 1 ≥ 12
    · rw [if_pos hstep]
      refine ⟨by simpa using le_trans hle (by norm_num), ?_⟩
      constructor
      · intro _; rfl
      · intro hcontra; exact absurd rfl hcontra
    · rw [if_neg hstep]
      have hgain : (0 : ℚ) ≤ r * (100 / 12) + (100 / 12 - 3) := by
        have := mul_nonneg hr (by norm_num : (0:ℚ) ≤ 100 / 12)
        linarith
      refine ⟨le_min hle (by linarith), ?_, ?_⟩
      · intro hcontra; exact absurd hcontra hdone
      · intro _; exact min_le_left _ _
  

/-- Generic invariant-and-chain lemma over `List.scanl`. -/
theorem chain'_scanl_of_step {α β : Type} {f : α → β → α} {R : α → α → Prop} {P : α → Prop} :
    ∀ (l : List β) (a : α), P a → (∀ x b, P x → b ∈ l → R x (f x b) ∧ P (f x b)) →
      List.Chain' R (List.scanl f a l) ∧ ∀ x ∈ List.scanl f a l, P x := by
  intro l
  induction l with
  | nil =>
      intro a hP _
      refine ⟨by simp, ?_⟩
      intro x hx
      simp [List.scanl] at hx
      simpa [hx] using hP
  | cons r rs ih =>
      intro a hP hstep
      have h1 := hstep a r hP (by simp)
      have h2 := ih (f a r) h1.2 (fun x b hx hb => hstep x b hx (by simp [hb]))
      have hhead : (List.scanl f (f a r) rs).head? = some (f a r) := by
        cases rs <;> simp [List.scanl]
      constructor
      · rw [List.scanl_cons, List.singleton_append, List.chain'_cons']
        refine ⟨?_, h2.1⟩
        intro y hy
        rw [hhead] at hy
        cases hy
        exact h1.1
      · intro x hx
        rw [List.scanl_cons, List.singleton_append] at hx
        rcases List.mem_cons.mp hx with hx | hx
        · simpa [hx] using hP
        · exact h2.2 x hx

/-- Claim C8: along every run of the client progress simulation the progress
value is non-decreasing, never exceeds 100 at any observable point, and at
completion (status done) is forced to exactly 100. -/
theorem simulateProcessing_progress_monotone (jobId : String) (files : List FileMeta)
    (env : SampleEnv) (rs : List ℚ) (hr : ∀ r ∈ rs, 0 ≤ r) :
    List.Chain' (fun a b => a.progress ≤ b.progress) (simTrace jobId files env rs) ∧
    (∀ s ∈ simTrace jobId files env rs, s.progress ≤ 100) ∧
    (∀ s ∈ simTrace jobId files env rs, s.status = .done → s.progress = 100) := by
  have hInv0 : ProgressInv (simStart (uploadInit jobId)) := by
    constructor
    · intro hcontra; simp [simStart, uploadInit] at hcontra
    · intro _; norm_num [simStart, uploadInit]
  have hmain := chain'_scanl_of_step (f := fun j r => simTick files env r j)
    (R := fun a b => a.progress ≤ b.progress) (P := ProgressInv) rs
    (simStart (uploadInit jobId)) hInv0
    (fun x b hx hb => simTick_progress_le files env b x (hr b hb) hx)
  have hle100 : ∀ s : InternalJob, ProgressInv s → s.progress ≤ 100 := by
    intro s hs
    by_cases hdone : s.status = .done
    · rw [hs.1 hdone]
    · linarith [hs.2 hdone]
  refine ⟨?_, ?_, ?_⟩
  · rw [simTrace, List.chain'_cons']
    refine ⟨?_, hmain.1⟩
    intro y hy
    have hhead : (List.scanl (fun j r => simTick files env r j)
        (simStart (uploadInit jobId)) rs).head? = some (simStart (uploadInit jobId)) := by
      cases rs <;> simp [List.scanl]
    rw [hhead] at hy
    cases hy
    norm_num [uploadInit, simStart]
  · intro s hs
    rcases List.mem_cons.mp hs with hs | hs
    · norm_num [hs, uploadInit]
    · exact hle100 s (hmain.2 s hs)
  · intro s hs hdone
    rcases List.mem_cons.mp hs with hs | hs
    · rw [hs] at hdone; simp [uploadInit] at hdone
    · exact (hmain.2 s hs).1 hdone

theorem simulateProcessing_progress_monotone_witness :
    (∀ r ∈ ([0, 1] : List ℚ), 0 ≤ r) ∧
    (List.Chain' (fun a b => a.progress ≤ b.progress) (simTrace "job_w" [] envS [0, 1]) ∧
     (∀ s ∈ simTrace "job_w" [] envS [0, 1], s.progress ≤ 100) ∧
     (∀ s ∈ simTrace "job_w" [] envS [0, 1], s.status = .done → s.progress = 100)) :=
  ⟨by norm_num, simulateProcessing_progress_monotone "job_w" [] envS [0, 1] (by norm_num)⟩

theorem simTick_statusStep (files : List FileMeta) (env : SampleEnv) (r : ℚ)
    (j : InternalJob) :
    statusStep j.status (simTick files env r j).status ∧
    ((simTick files env r j).status = .failed → j.status = .failed) := by
  by_cases hdone : j.status = .done
  · simp [simTick, hdone, statusStep]
  · rw [simTick, if_neg hdone]
    by_cases hstep : j.step + 1 ≥ 12
    · rw [if_pos hstep]
      simp [statusStep]
    · rw [if_neg hstep]
      simp [statusStep]

theorem simRun_done (files : List FileMeta) (env : SampleEnv) :
    ∀ (rs : List ℚ) (j : InternalJob),
    ((j.status = .done ∧ j.result = some (buildSampleQuiz files env)) ∨
     (j.status ≠ .done ∧ j.step < 12 ∧ 12 ≤ j.step + rs.length)) →
    (simRun files env rs j).status = .done ∧
    (simRun files env rs j).result = some (buildSampleQuiz files env) := by
  intro rs
  induction rs with
  | nil =>
      intro j h
      rcases h with ⟨h1, h2⟩ | ⟨h1, h2, h3⟩
      · exact ⟨h1, h2⟩
      · simp at h3; omega
  | cons r rs ih =>
      intro j h
      have hrun : simRun files env (r :: rs) j = simRun files env rs (simTick files env r j) := rfl
      rw [hrun]
      rcases h with ⟨h1, h2⟩ | ⟨h1, h2, h3⟩
      · apply ih
        left
        rw [simTick, if_pos h1]
        exact ⟨h1, h2⟩
      · by_cases hstep : j.step + 1 ≥ 12
        · apply ih
          left
          rw [simTick, if_neg h1, if_pos hstep]
          exact ⟨rfl, rfl⟩
        · apply ih
          right
          rw [simTick, if_neg h1, if_neg hstep]
          refine ⟨by simpa using h1, by simp; omega, ?_⟩
          simp at h3 ⊢
          omega

theorem lookupJob_map_replace (k : String) (v : InternalJob) :
    ∀ store : JobStore,
    lookupJob (store.map (fun p => if p.1 == k then (k, v) else p)) k
      = if (store.find? (fun p => p.1 == k)).isSome then some v else none := by
  intro store
  induction store with
  | nil => simp [lookupJob]
  | cons a l ih =>
      by_cases ha : a.1 = k
      · simp [lookupJob, ha]
      · have hb : (a.1 == k) = false := by simp [ha]
        simp only [List.map_cons, hb, Bool.false_eq_true, if_false]
        rw [lookupJob, List.find?_cons_of_neg _ (by simp [hb]), List.find?_cons_of_neg _ (by simp [hb])]
        rw [lookupJob] at ih
        exact ih

theorem lookupJob_append_single (k : String) (v : InternalJob) :
    ∀ store : JobStore, store.find? (fun p => p.1 == k) = none →
    lookupJob (store ++ [(k, v)]) k = some v := by
  intro store
  induction store with
  | nil => intro _; simp [lookupJob, List.find?]
  | cons a l ih =>
      intro h
      rw [List.find?_cons] at h
      rcases hpa : (a.1 == k) with _ | _
      · rw [hpa] at h
        simp only [List.cons_append]
        rw [lookupJob, List.find?_cons_of_neg _ (by simp [hpa])]
        rw [lookupJob] at ih
        exact ih h
      · rw [hpa] at h; simp at h

theorem lookupJob_setJob (store : JobStore) (k : String) (v : InternalJob) :
    lookupJob (setJob store k v) k = some v := by
  unfold setJob
  by_cases h : (store.find? (fun p => p.1 == k)).isSome
  · rw [if_pos h, lookupJob_map_replace, if_pos h]
  · rw [if_neg h]
    exact lookupJob_append_single k v store (Option.not_isSome_iff_eq_none.mp h)

/-- Claim C10: uploading an empty file list still succeeds: the job record
is created pending under the returned jobId, its status only moves forward
(pending, processing, done) and is never failed, and after the simulation
finishes the job is done with the sample quiz built from zero files, which
has an empty question list. -/
theorem uploadFiles_empty_succeeds (jobId : String) (store : JobStore) (env : SampleEnv)
    (rs : List ℚ) (hlen : 12 ≤ rs.length) :
    lookupJob (uploadFiles jobId store) jobId = some (uploadInit jobId) ∧
    (uploadInit jobId).status = .pending ∧
    (simTrace jobId [] env rs).head? = some (uploadInit jobId) ∧
    List.Chain' (fun a b => statusStep a.status b.status) (simTrace jobId [] env rs) ∧
    (∀ s ∈ simTrace jobId [] env rs, s.status ≠ .failed) ∧
    (simRun [] env rs (simStart (uploadInit jobId))).status = .done ∧
    (simRun [] env rs (simStart (uploadInit jobId))).result = some (buildSampleQuiz [] env) ∧
    (buildSampleQuiz [] env).questions = [] := by
  have hchain := chain'_scanl_of_step (f := fun j r => simTick [] env r j)
      (R := fun a b => statusStep a.status b.status) (P := fun j => j.status ≠ .failed) rs
      (simStart (uploadInit jobId)) (by simp [simStart])
      (fun x b hx _ => ⟨(simTick_statusStep [] env b x).1,
        fun hf => hx ((simTick_statusStep [] env b x).2 hf)⟩)
  have hdone := simRun_done [] env rs (simStart (uploadInit jobId))
    (Or.inr ⟨by simp [simStart], by simp [simStart, uploadInit], by
      simp only [simStart, uploadInit]
      omega⟩)
  have hhead : (List.scanl (fun j r => simTick [] env r j)
      (simStart (uploadInit jobId)) rs).head? = some (simStart (uploadInit jobId)) := by
    cases rs <;> simp [List.scanl]
  refine ⟨lookupJob_setJob store jobId (uploadInit jobId), rfl, by cases rs <;> rfl,
    ?_, ?_, hdone.1, hdone.2, rfl⟩
  · rw [simTrace, List.chain'_cons']
    refine ⟨?_, hchain.1⟩
    intro y hy
    rw [hhead] at hy
    cases hy
    exact Or.inr (Or.inr ⟨rfl, rfl⟩)
  · intro s hs
    rcases List.mem_cons.mp hs with hs | hs
    · simp [hs, uploadInit]
    · exact hchain.2 s hs

theorem uploadFiles_empty_succeeds_witness :
    12 ≤ (List.replicate 12 (0 : ℚ)).length ∧
    (lookupJob (uploadFiles "job_w2" []) "job_w2" = some (uploadInit "job_w2") ∧
     (uploadInit "job_w2").status = .pending ∧
     (simTrace "job_w2" [] envS (List.replicate 12 0)).head? = some (uploadInit "job_w2") ∧
     List.Chain' (fun a b => statusStep a.status b.status)
       (simTrace "job_w2" [] envS (List.replicate 12 0)) ∧
     (∀ s ∈ simTrace "job_w2" [] envS (List.replicate 12 0), s.status ≠ .failed) ∧
     (simRun [] envS (List.replicate 12 0) (simStart (uploadInit "job_w2"))).status = .done ∧
     (simRun [] envS (List.replicate 12 0)
        (simStart (uploadInit "job_w2"))).result = some (buildSampleQuiz [] envS) ∧
     (buildSampleQuiz [] envS).questions = []) :=
  ⟨by simp, uploadFiles_empty_succeeds "job_w2" [] envS (List.replicate 12 0) (by simp)⟩

theorem acceptQuestion_frame_witness :
    stC7.currentQuiz = some quizC7 ∧ (∃ q ∈ quizC7.questions, q.id = "q_2") ∧
    (∃ quiz', (acceptQuestion stC7 "q_2").currentQuiz = some quiz' ∧
      quiz'.quizId = quizC7.quizId ∧ quiz'.title = quizC7.title ∧
      quiz'.subject = quizC7.subject ∧ quiz'.generatedAt = quizC7.generatedAt ∧
      quiz'.questions.length = quizC7.questions.length ∧
      ∀ i : ℕ, ∀ h1 : i < quiz'.questions.length, ∀ h2 : i < quizC7.questions.length,
        (quiz'.questions.get ⟨i, h1⟩).id = (quizC7.questions.get ⟨i, h2⟩).id ∧
        (quiz'.questions.get ⟨i, h1⟩).type = (quizC7.questions.get ⟨i, h2⟩).type ∧
        (quiz'.questions.get ⟨i, h1⟩).prompt = (quizC7.questions.get ⟨i, h2⟩).prompt ∧
        (quiz'.questions.get ⟨i, h1⟩).choices = (quizC7.questions.get ⟨i, h2⟩).choices ∧
        (quiz'.questions.get ⟨i, h1⟩).answer = (quizC7.questions.get ⟨i, h2⟩).answer ∧
        (quiz'.questions.get ⟨i, h1⟩).explanation = (quizC7.questions.get ⟨i, h2⟩).explanation ∧
        (quiz'.questions.get ⟨i, h1⟩).confidence = (quizC7.questions.get ⟨i, h2⟩).confidence ∧
        (quiz'.questions.get ⟨i, h1⟩).tags = (quizC7.questions.get ⟨i, h2⟩).tags ∧
        (quiz'.questions.get ⟨i, h1⟩).source = (quizC7.questions.get ⟨i, h2⟩).source ∧
        (quiz'.questions.get ⟨i, h1⟩).sourceAnchors = (quizC7.questions.get ⟨i, h2⟩).sourceAnchors ∧
        (quiz'.questions.get ⟨i, h1⟩).status
          = (if (quizC7.questions.get ⟨i, h2⟩).id = "q_2" then some QStatus.accepted
             else (quizC7.questions.get ⟨i, h2⟩).status)) :=
  ⟨rfl, by decide, acceptQuestion_frame stC7 quizC7 "q_2" rfl (by decide)⟩

theorem asStringList_map_str (xs : List String) :
    GenerationSchema.asStringList (xs.map Json.str) = some xs := by
  induction xs with
  | nil => rfl
  | cons a l ih => simp [GenerationSchema.asStringList, ih]

theorem decodeList_map {α : Type} (f : Json → Option α) (enc : α → Json)
    (henc : ∀ a, f (enc a) = some a) (xs : List α) :
    decodeList f (xs.map enc) = some xs := by
  induction xs with
  | nil => rfl
  | cons a l ih => simp [decodeList, henc, ih]

theorem decodeQType_encodeQType (t : QType) : decodeQType (encodeQType t) = some t := by
  cases t <;> rfl

theorem decodeStatus_encodeStatus (s : QStatus) : decodeStatus (encodeStatus s) = some s := by
  cases s <;> rfl

theorem decodeAnswer_encodeAnswer (a : Answer) : decodeAnswer (encodeAnswer a) = some a := by
  cases a with
  | str s => rfl
  | arr xs => simp [encodeAnswer, decodeAnswer, asStringList_map_str]

theorem decodeAnchor_encodeAnchor (a : SourceAnchor) :
    decodeAnchor (encodeAnchor a) = some a := by
  rcases a with ⟨p, s, e, t⟩
  cases p <;> cases s <;> cases e <;> cases t <;> rfl

theorem getField_nil (k : String) : getField [] k = none := rfl

theorem getField_cons_self (k : String) (v : Json) (o : List (String × Json)) :
    getField ((k, v) :: o) k = some v := by
  simp [getField, List.find?_cons_of_pos]

theorem getField_cons_ne (k k' : String) (v : Json) (o : List (String × Json))
    (h : (k' == k) = false) : getField ((k', v) :: o) k = getField o k := by
  rw [getField, List.find?_cons_of_neg _ (by simp [h]), getField]

theorem getField_optField_ne (k k' : String) (x : Option Json) (o : List (String × Json))
    (h : (k' == k) = false) : getField (optField k' x ++ o) k = getField o k := by
  cases x <;> simp [optField, getField_cons_ne _ _ _ _ h]

theorem getField_optField_self (k : String) (x : Option Json) (o : List (String × Json))
    (h : getField o k = none) : getField (optField k x ++ o) k = x := by
  cases x with
  | none => simpa [optField] using h
  | some v => simp [optField, getField_cons_self]

theorem getField_optField_ne_nil (k k' : String) (x : Option Json)
    (h : (k' == k) = false) : getField (optField k' x) k = none := by
  cases x <;> simp [optField, getField_cons_ne _ _ _ _ h, getField_nil]

theorem getField_optField_self_nil (k : String) (x : Option Json) :
    getField (optField k x) k = x := by
  cases x <;> simp [optField, getField_cons_self, getField_nil]

theorem decodeOpt_map {α : Type} (f : Json → Option α) (enc : α → Json)
    (henc : ∀ a, f (enc a) = some a) (x : Option α) :
    decodeOpt f (x.map enc) = some x := by
  cases x <;> simp [decodeOpt, henc]

theorem encQF_id (q : QuizQuestion) :
    getField (encodeQuestionFields q) "id" = some (Json.str q.id) := by
  simp [encodeQuestionFields, List.append_assoc, getField_cons_self, getField_cons_ne,
    getField_optField_ne, getField_optField_self, getField_optField_ne_nil,
    getField_optField_self_nil, getField_nil]

theorem encQF_type (q : QuizQuestion) :
    getField (encodeQuestionFields q) "type" = some (encodeQType q.type) := by
  simp [encodeQuestionFields, List.append_assoc, getField_cons_self, getField_cons_ne,
    getField_optField_ne, getField_optField_self, getField_optField_ne_nil,
    getField_optField_self_nil, getField_nil]

theorem encQF_prompt (q : QuizQuestion) :
    getField (encodeQuestionFields q) "prompt" = some (Json.str q.prompt) := by
  simp [encodeQuestionFields, List.append_assoc, getField_cons_self, getField_cons_ne,
    getField_optField_ne, getField_optField_self, getField_optField_ne_nil,
    getField_optField_self_nil, getField_nil]

theorem encQF_choices (q : QuizQuestion) :
    getField (encodeQuestionFields q) "choices" = q.choices.map (fun cs => Json.arr (cs.map Json.str)) := by
  simp [encodeQuestionFields, List.append_assoc, getField_cons_self, getField_cons_ne,
    getField_optField_ne, getField_optField_self, getField_optField_ne_nil,
    getField_optField_self_nil, getField_nil]

theorem encQF_answer (q : QuizQuestion) :
    getField (encodeQuestionFields q) "answer" = q.answer.map encodeAnswer := by
  simp [encodeQuestionFields, List.append_assoc, getField_cons_self, getField_cons_ne,
    getField_optField_ne, getField_optField_self, getField_optField_ne_nil,
    getField_optField_self_nil, getField_nil]

theorem encQF_explanation (q : QuizQuestion) :
    getField (encodeQuestionFields q) "explanation" = q.explanation.map Json.str := by
  simp [encodeQuestionFields, List.append_assoc, getField_cons_self, getField_cons_ne,
    getField_optField_ne, getField_optField_self, getField_optField_ne_nil,
    getField_optField_self_nil, getField_nil]

theorem encQF_confidence (q : QuizQuestion) :
    getField (encodeQuestionFields q) "confidence" = q.confidence.map Json.num := by
  simp [encodeQuestionFields, List.append_assoc, getField_cons_self, getField_cons_ne,
    getField_optField_ne, getField_optField_self, getField_optField_ne_nil,
    getField_optField_self_nil, getField_nil]

theorem encQF_tags (q : QuizQuestion) :
    getField (encodeQuestionFields q) "tags" = q.tags.map (fun ts => Json.arr (ts.map Json.str)) := by
  simp [encodeQuestionFields, List.append_assoc, getField_cons_self, getField_cons_ne,
    getField_optField_ne, getField_optField_self, getField_optField_ne_nil,
    getField_optField_self_nil, getField_nil]

theorem encQF_source (q : QuizQuestion) :
    getField (encodeQuestionFields q) "source" = q.source.map Json.str := by
  simp [encodeQuestionFields, List.append_assoc, getField_cons_self, getField_cons_ne,
    getField_optField_ne, getField_optField_self, getField_optField_ne_nil,
    getField_optField_self_nil, getField_nil]

theorem encQF_sourceAnchors (q : QuizQuestion) :
    getField (encodeQuestionFields q) "sourceAnchors" = q.sourceAnchors.map (fun l => Json.arr (l.map encodeAnchor)) := by
  simp [encodeQuestionFields, List.append_assoc, getField_cons_self, getField_cons_ne,
    getField_optField_ne, getField_optField_self, getField_optField_ne_nil,
    getField_optField_self_nil, getField_nil]

theorem encQF_status (q : QuizQuestion) :
    getField (encodeQuestionFields q) "status" = q.status.map encodeStatus := by
  simp [encodeQuestionFields, List.append_assoc, getField_cons_self, getField_cons_ne,
    getField_optField_ne, getField_optField_self, getField_optField_ne_nil,
    getField_optField_self_nil, getField_nil]

theorem encQuizF_quizId (q : Quiz) :
    getField (encodeQuizFields q) "quizId" = some (Json.str q.quizId) := by
  simp [encodeQuizFields, List.append_assoc, getField_cons_self, getField_cons_ne,
    getField_optField_ne, getField_optField_self, getField_optField_ne_nil,
    getField_optField_self_nil, getField_nil]

theorem encQuizF_title (q : Quiz) :
    getField (encodeQuizFields q) "title" = q.title.map Json.str := by
  simp [encodeQuizFields, List.append_assoc, getField_cons_self, getField_cons_ne,
    getField_optField_ne, getField_optField_self, getField_optField_ne_nil,
    getField_optField_self_nil, getField_nil]

theorem encQuizF_subject (q : Quiz) :
    getField (encodeQuizFields q) "subject" = q.subject.map Json.str := by
  simp [encodeQuizFields, List.append_assoc, getField_cons_self, getField_cons_ne,
    getField_optField_ne, getField_optField_self, getField_optField_ne_nil,
    getField_optField_self_nil, getField_nil]

theorem encQuizF_generatedAt (q : Quiz) :
    getField (encodeQuizFields q) "generatedAt" = some (Json.str q.generatedAt) := by
  simp [encodeQuizFields, List.append_assoc, getField_cons_self, getField_cons_ne,
    getField_optField_ne, getField_optField_self, getField_optField_ne_nil,
    getField_optField_self_nil, getField_nil]

theorem encQuizF_questions (q : Quiz) :
    getField (encodeQuizFields q) "questions" = some (Json.arr (q.questions.map encodeQuestion)) := by
  simp [encodeQuizFields, List.append_assoc, getField_cons_self, getField_cons_ne,
    getField_optField_ne, getField_optField_self, getField_optField_ne_nil,
    getField_optField_self_nil, getField_nil]

theorem decodeQuestion_encodeQuestion (q : QuizQuestion) :
    decodeQuestion (encodeQuestion q) = some q := by
  have hch := decodeOpt_map asStrList (fun cs => Json.arr (cs.map Json.str))
    (fun cs => by simp [asStrList, asStringList_map_str])
  have han := decodeOpt_map decodeAnswer encodeAnswer decodeAnswer_encodeAnswer
  have hstr := decodeOpt_map asStr Json.str (fun s => rfl)
  have hnum := decodeOpt_map asNum Json.num (fun n => rfl)
  have hsa := decodeOpt_map decodeAnchorList (fun l => Json.arr (l.map encodeAnchor))
    (fun l => by simp [decodeAnchorList, decodeList_map _ _ decodeAnchor_encodeAnchor])
  have hst := decodeOpt_map decodeStatus encodeStatus decodeStatus_encodeStatus
  simp [encodeQuestion, decodeQuestion, encQF_id, encQF_type, encQF_prompt, encQF_choices,
    encQF_answer, encQF_explanation, encQF_confidence, encQF_tags, encQF_source,
    encQF_sourceAnchors, encQF_status, asStr, decodeQType_encodeQType,
    hch, han, hstr, hnum, hsa, hst]

theorem decodeQuestionArr_map (qs : List QuizQuestion) :
    decodeQuestionArr (.arr (qs.map encodeQuestion)) = some qs := by
  simp [decodeQuestionArr, decodeList_map _ _ decodeQuestion_encodeQuestion]

theorem decodeQuiz_encodeQuiz (q : Quiz) : decodeQuiz (encodeQuiz q) = some q := by
  have hstr := decodeOpt_map asStr Json.str (fun s => rfl)
  simp [encodeQuiz, decodeQuiz, encQuizF_quizId, encQuizF_title, encQuizF_subject,
    encQuizF_generatedAt, encQuizF_questions, asStr, hstr, decodeQuestionArr_map]

/-- Claim C9: exporting a quiz to JSON and parsing the result back yields the
identical quiz; with the exclude-answers option the parse-back equals the
quiz with every answer field absent, and nothing else changed. -/
theorem export_json_roundtrip (quiz : Quiz) :
    decodeQuiz (doDownloadJsonData quiz true) = some quiz ∧
    decodeQuiz (doDownloadJsonData quiz false) = some (stripAnswersQuiz quiz) ∧
    ∀ q ∈ (stripAnswersQuiz quiz).questions, q.answer = none := by
  refine ⟨?_, ?_, ?_⟩
  · simpa [doDownloadJsonData] using decodeQuiz_encodeQuiz quiz
  · simpa [doDownloadJsonData] using decodeQuiz_encodeQuiz (stripAnswersQuiz quiz)
  · intro q hq
    simp [stripAnswersQuiz] at hq
    obtain ⟨a, -, rfl⟩ := hq
    rfl

end ExamGen
